import Mathlib

/-!
Shallow embedding of the RustyCubes simulation core (src/src/main.rs).

Conventions used throughout:
* The Rust code stores coordinates as a pair (x, y) of i16 where x indexes
  the outer vector of the grid (10 entries, the playfield columns) and y the
  inner vector (20 entries, the playfield rows).  We model i16 values as Int
  (all quantities stay far from the i16 range in every scenario considered).
* Rust vector indexing panics when the index is out of range, and a negative
  i16 cast with `as usize` wraps to a huge value and panics as well.  Every
  operation that indexes the grid is therefore embedded as an Option-valued
  function: `none` models a panic, `some` a normal result.
* Rendering-only fields of the Rust structs (rect, outer_mesh, inner_mesh,
  the pixel coordinates of Grid, the ggez Context argument) carry no game
  state and are omitted; every other field is kept with its source name.
* The Rust piece matrix is always a literal 4 x 4 Vec of Vecs (built by
  Piece::new and never resized), so the source's index loops over 0..4 are
  embedded as maps / folds over the concrete lists.
-/

namespace RustyCubes

/-- Grid position, from struct GridPosition: a 2D integer coordinate.
x is the column index of the board, y the row index. -/
structure GridPosition where
  x : Int
  y : Int
deriving DecidableEq, Repr

/-- Movement direction, from enum Direction. -/
inductive Direction where
  | LEFT
  | RIGHT
deriving DecidableEq, Repr

/-- Piece kind, from enum PieceKind. -/
inductive PieceKind where
  | I
  | J
  | L
  | O
  | S
  | T
  | Z
deriving DecidableEq, Repr

/-- Board constant GRID_ROWS = 10 (the outer dimension of the cell matrix;
despite the name it is the number of playfield columns). -/
def GRID_ROWS : Nat := 10

/-- Board constant GRID_COLS = 20 (the inner dimension of the cell matrix;
despite the name it is the number of playfield rows). -/
def GRID_COLS : Nat := 20

/-- Sub-block of a piece (struct Block), without the rendering-only fields
rect / outer_mesh / inner_mesh. -/
structure Block where
  kind : PieceKind
  position : GridPosition
  offset : GridPosition
  active : Bool
  render : Bool
deriving DecidableEq, Repr

/-- Block::new: position (x, y), offset (0, 0), inactive and unrendered. -/
def Block.new (x y : Int) (kind : PieceKind) : Block :=
  { kind := kind
    position := ⟨x, y⟩
    offset := ⟨0, 0⟩
    active := false
    render := false }

/-- Block::empty = Block::new at (0, 0). -/
def Block.empty (kind : PieceKind) : Block := Block.new 0 0 kind

/-- Block::update: if the block is inactive it returns unchanged; otherwise
its absolute position becomes parent position + offset. -/
def Block.update (b : Block) (parent : GridPosition) : Block :=
  if !b.active then b
  else { b with position := ⟨parent.x + b.offset.x, parent.y + b.offset.y⟩ }

/-- Block::set_inactive. -/
def Block.set_inactive (b : Block) : Block := { b with active := false }

/-- Block::do_render. -/
def Block.do_render (b : Block) : Block := { b with render := true }

/-- Block::active_and_render. -/
def Block.active_and_render (b : Block) : Block :=
  { b with render := true, active := true }

/-- Block::set_offset: note the source adds the argument to the block's
current position (which is (0, 0) for the freshly built blocks of
Piece::new, making the offset equal to the matrix indices). -/
def Block.set_offset (b : Block) (x y : Int) : Block :=
  { b with offset := ⟨b.position.x + x, b.position.y + y⟩ }

/-- Helper: modify the element at one index of a list, leaving the list
unchanged when the index is out of range (list analogue of an in-place
Vec update at a known-good index). -/
def modifyL (f : α → α) : List α → Nat → List α
  | [], _ => []
  | a :: rest, 0 => f a :: rest
  | a :: rest, n + 1 => a :: modifyL f rest n

/-- Helper: modify entry (r, c) of a list of lists. -/
def modify2 (bs : List (List α)) (r c : Nat) (f : α → α) : List (List α) :=
  modifyL (fun row => modifyL f row c) bs r

/-- Helper: read entry (r, c) of a list of lists, as an Option. -/
def get2? (bs : List (List α)) (r c : Nat) : Option α :=
  (bs.get? r).bind (fun row => row.get? c)

/-- Helper: map with the element index, used for the index-dependent
initialisation loops of the source. -/
def mapWithIdxFrom (f : Nat → α → β) : Nat → List α → List β
  | _, [] => []
  | i, a :: rest => f i a :: mapWithIdxFrom f (i + 1) rest

/-- Helper: mapWithIdxFrom starting at index 0. -/
def mapWithIdx (f : Nat → α → β) (l : List α) : List β :=
  mapWithIdxFrom f 0 l

/-- The falling tetromino (struct Piece). -/
structure Piece where
  position : GridPosition
  kind : PieceKind
  blocks : List (List Block)
  active : Bool
deriving DecidableEq, Repr

/-- Piece::new: a 4 x 4 matrix of empty blocks; the match on the kind marks
the shape's cells active and rendered; then set_offset(r, c) runs for every
index pair, which (since all positions are still (0, 0)) makes each block's
offset equal to its matrix indices. -/
def Piece.new (x y : Int) (kind : PieceKind) : Piece :=
  let base : List (List Block) :=
    List.replicate 4 (List.replicate 4 (Block.empty kind))
  let bs : List (List Block) :=
    match kind with
    | .I =>
        modify2 (modify2 (modify2 (modify2 base
          0 0 Block.active_and_render)
          1 0 Block.active_and_render)
          2 0 Block.active_and_render)
          3 0 Block.active_and_render
    | .J =>
        modify2 (modify2 (modify2 (modify2 base
          0 0 Block.active_and_render)
          0 1 Block.active_and_render)
          1 1 Block.active_and_render)
          2 1 Block.active_and_render
    | .L =>
        modify2 (modify2 (modify2 (modify2 base
          2 0 Block.active_and_render)
          0 1 Block.active_and_render)
          1 1 Block.active_and_render)
          2 1 Block.active_and_render
    | .O =>
        modify2 (modify2 (modify2 (modify2 base
          0 0 Block.active_and_render)
          0 1 Block.active_and_render)
          1 0 Block.active_and_render)
          1 1 Block.active_and_render
    | .S =>
        modify2 (modify2 (modify2 (modify2 base
          1 0 Block.active_and_render)
          2 0 Block.active_and_render)
          0 1 Block.active_and_render)
          1 1 Block.active_and_render
    | .T =>
        modify2 (modify2 (modify2 (modify2 base
          1 0 Block.active_and_render)
          0 1 Block.active_and_render)
          1 1 Block.active_and_render)
          2 1 Block.active_and_render
    | .Z =>
        modify2 (modify2 (modify2 (modify2 base
          0 0 Block.active_and_render)
          1 0 Block.active_and_render)
          1 1 Block.active_and_render)
          2 1 Block.active_and_render
  { position := ⟨x, y⟩
    kind := kind
    blocks :=
      mapWithIdx (fun r row =>
        mapWithIdx (fun c b => b.set_offset (Int.ofNat r) (Int.ofNat c)) row) bs
    active := true }

/-- Board cell (struct GridCell), without the rendering-only rect field. -/
structure GridCell where
  position : GridPosition
  occupied : Bool
  block : Option Block
deriving DecidableEq, Repr

/-- GridCell::new: unoccupied, no stored block. -/
def GridCell.new : GridCell :=
  { position := ⟨0, 0⟩, occupied := false, block := none }

/-- GridCell::set_position. -/
def GridCell.set_position (cell : GridCell) (x y : Int) : GridCell :=
  { cell with position := ⟨x, y⟩ }

/-- Frozen copy of a block as stored into a cell by GridCell::set_block:
a fresh block at the same position with the same kind (offset reset to
(0, 0)), made inactive and rendered. -/
def frozenCopy (b : Block) : Block :=
  ((Block.new b.position.x b.position.y b.kind).set_inactive).do_render

/-- GridCell::set_block: marks the cell occupied and stores the frozen copy
of the block. -/
def GridCell.set_block (cell : GridCell) (b : Block) : GridCell :=
  { cell with
      occupied := true
      block := some (frozenCopy b) }

/-- The board (struct Grid), without the rendering-only pixel coordinates. -/
structure Grid where
  cells : List (List GridCell)
deriving DecidableEq, Repr

/-- Grid::new: a GRID_ROWS x GRID_COLS matrix of fresh cells, each given its
own index pair as position. -/
def Grid.new : Grid :=
  { cells :=
      mapWithIdx (fun r row =>
        mapWithIdx (fun c cell => cell.set_position (Int.ofNat r) (Int.ofNat c)) row)
        (List.replicate GRID_ROWS (List.replicate GRID_COLS GridCell.new)) }

/-- Cell lookup grid.cells[x][y]: none models the Rust panic, which happens
when either index is out of range or negative (a negative i16 cast with
`as usize` wraps far out of range). -/
def Grid.cellAt? (g : Grid) (x y : Int) : Option GridCell :=
  if 0 ≤ x ∧ 0 ≤ y then
    (g.cells.get? x.toNat).bind (fun col => col.get? y.toNat)
  else none

/-- Occupancy of a cell, false when the position is off the board.  This is
a specification-side total view of the grid used to state properties; the
embedded code paths use cellAt? directly. -/
def Grid.occupiedAt (g : Grid) (x y : Int) : Bool :=
  ((g.cellAt? x y).map GridCell.occupied).getD false

/-- Grid mutation grid.cells[x][y].set_block(block): none models the panic
of an out-of-range index. -/
def Grid.setBlock? (g : Grid) (x y : Int) (b : Block) : Option Grid :=
  match g.cellAt? x y with
  | none => none
  | some _ =>
      some { cells := modify2 g.cells x.toNat y.toNat (fun cell => cell.set_block b) }

/-- The row-major list of the sixteen blocks of a piece (the iteration
order of the source's `for r in 0..4 for c in 0..4` loops). -/
def Piece.blockList (p : Piece) : List Block := p.blocks.flatten

/-- Piece::update_fast: every block is repositioned relative to the anchor
(Block::update ignores inactive blocks), and the piece is deactivated when
any block's row + 1 equals GRID_COLS (this test runs for all 16 blocks). -/
def Piece.update_fast (p : Piece) : Piece :=
  let bs := p.blocks.map (fun row => row.map (fun b => b.update p.position))
  let act :=
    if (bs.flatten.any (fun b => b.position.y + 1 == (GRID_COLS : Int))) then false
    else p.active
  { p with blocks := bs, active := act }

/-- The per-block lock test of Piece::update: for each active block (after
repositioning), the piece dies when the block's row + 1 equals GRID_COLS,
or when x < 10, y < 19 and the cell just below it is occupied (the literals
10 and 19 are written as such in the source).  The grid lookup runs for
every active block that passes the two bound guards, so a panic (none) is
reported even when an earlier block already triggered the lock. -/
def lockHit (g : Grid) : List Block → Option Bool
  | [] => some false
  | b :: rest =>
    if !b.active then lockHit g rest
    else
      let bottom := b.position.y + 1 == (GRID_COLS : Int)
      if b.position.x < 10 ∧ b.position.y < 19 then
        match g.cellAt? b.position.x (b.position.y + 1) with
        | none => none
        | some cell => (lockHit g rest).map (fun h => bottom || cell.occupied || h)
      else (lockHit g rest).map (fun h => bottom || h)

/-- Clamp of the x coordinate used when a dying piece is merged:
positions at or past GRID_ROWS are moved to GRID_ROWS - 1. -/
def clampX (x : Int) : Int :=
  if x ≥ (GRID_ROWS : Int) then (GRID_ROWS : Int) - 1 else x

/-- Clamp of the y coordinate used when a dying piece is merged:
positions at or past GRID_COLS are moved to GRID_COLS - 1. -/
def clampY (y : Int) : Int :=
  if y ≥ (GRID_COLS : Int) then (GRID_COLS : Int) - 1 else y

/-- One step of the merge loop of Piece::update: unrendered blocks are
skipped; a rendered block is stored at its clamped position. -/
def mergeBlock (g : Grid) (b : Block) : Option Grid :=
  if !b.render then some g
  else g.setBlock? (clampX b.position.x) (clampY b.position.y) b

/-- The merge loop of Piece::update over the row-major block list. -/
def mergeAll (g : Grid) : List Block → Option Grid
  | [] => some g
  | b :: rest =>
    match mergeBlock g b with
    | none => none
    | some g2 => mergeAll g2 rest

/-- Piece::update (the gravity step): an inactive piece returns immediately
with nothing changed.  Otherwise the anchor moves one row down, every
active block is repositioned, the lock tests run, and if the piece died its
rendered blocks are merged into the grid at their (clamped) positions. -/
def Piece.update (p : Piece) (g : Grid) : Option (Piece × Grid) :=
  if !p.active then some (p, g)
  else
    let pos : GridPosition := ⟨p.position.x, p.position.y + 1⟩
    let bs := p.blocks.map (fun row => row.map (fun b => b.update pos))
    match lockHit g bs.flatten with
    | none => none
    | some hit =>
      let p2 : Piece := { p with position := pos, blocks := bs, active := !hit }
      if hit then
        match mergeAll g bs.flatten with
        | none => none
        | some g2 => some (p2, g2)
      else some (p2, g)

/-- Piece::move_left. -/
def Piece.move_left (p : Piece) : Piece :=
  { p with position := ⟨p.position.x - 1, p.position.y⟩ }

/-- Piece::move_right. -/
def Piece.move_right (p : Piece) : Piece :=
  { p with position := ⟨p.position.x + 1, p.position.y⟩ }

/-- The per-block loop of can_move, over the row-major block list: inactive
blocks are skipped; moving LEFT is rejected when a block is at column 0
(before any grid access) or the cell to its left is occupied; moving RIGHT
is rejected when a block's column + 1 equals 10 (before any grid access) or
the cell to its right is occupied. -/
def canMoveBlocks (g : Grid) (d : Direction) : List Block → Option Bool
  | [] => some true
  | b :: rest =>
    if !b.active then canMoveBlocks g d rest
    else
      match d with
      | .LEFT =>
        if b.position.x == 0 then some false
        else
          match g.cellAt? (b.position.x - 1) b.position.y with
          | none => none
          | some cell =>
            if cell.occupied then some false else canMoveBlocks g d rest
      | .RIGHT =>
        if b.position.x + 1 == 10 then some false
        else
          match g.cellAt? (b.position.x + 1) b.position.y with
          | none => none
          | some cell =>
            if cell.occupied then some false else canMoveBlocks g d rest

/-- can_move: the anchor pre-checks (reject RIGHT when the anchor column is
at least GRID_ROWS - 1, reject LEFT when it is at most 0) followed by the
per-block loop. -/
def canMove? (p : Piece) (g : Grid) (d : Direction) : Option Bool :=
  if d = Direction.RIGHT ∧ p.position.x ≥ (GRID_ROWS : Int) - 1 then some false
  else if d = Direction.LEFT ∧ p.position.x ≤ 0 then some false
  else canMoveBlocks g d p.blockList

/-- The gravity branch of State::update: run Piece::update, then if the
piece died replace it by a fresh piece at the spawn anchor (4, 0).  The
kind of the replacement is drawn at random in the source
(Piece::new_random); it is passed as a parameter here. -/
def stateGravityStep (k : PieceKind) (p : Piece) (g : Grid) : Option (Piece × Grid) :=
  match p.update g with
  | none => none
  | some (p2, g2) => some (if p2.active then p2 else Piece.new 4 0 k, g2)

/-- Iterate Piece::update alone (no respawn), propagating panics. -/
def iterateUpdate : Nat → Piece → Grid → Option (Piece × Grid)
  | 0, p, g => some (p, g)
  | n + 1, p, g =>
    match Piece.update p g with
    | none => none
    | some (p2, g2) => iterateUpdate n p2 g2

/-- Iterate the gravity branch of State::update, spawning every replacement
piece with kind k. -/
def iterateState (k : PieceKind) : Nat → Piece → Grid → Option (Piece × Grid)
  | 0, p, g => some (p, g)
  | n + 1, p, g =>
    match stateGravityStep k p g with
    | none => none
    | some (p2, g2) => iterateState k n p2 g2

/-- The occupied cells of the board, as the row-major list of their
positions (each cell's position field is its own index pair, assigned by
Grid::new and never modified afterwards). -/
def Grid.occupiedPositions (g : Grid) : List (Int × Int) :=
  g.cells.flatten.filterMap
    (fun cell => if cell.occupied then some (cell.position.x, cell.position.y) else none)

/-- Read the block at matrix entry (r, c) of a piece, with an empty block
as the (never reached, every piece is 4 x 4) out-of-range default. -/
def blockAt (p : Piece) (r c : Nat) : Block :=
  (get2? p.blocks r c).getD (Block.empty p.kind)

/-- Modelled from the spec (section 4.1 catalog table): the occupied local
cells of each kind as (local_x, local_y) pairs, which coincide with the
4 x 4 matrix index pairs (r, c) that Piece::new marks active. -/
def catalogCells (k : PieceKind) : List (Nat × Nat) :=
  match k with
  | .I => [(0, 0), (1, 0), (2, 0), (3, 0)]
  | .J => [(0, 0), (0, 1), (1, 1), (2, 1)]
  | .L => [(2, 0), (0, 1), (1, 1), (2, 1)]
  | .O => [(0, 0), (0, 1), (1, 0), (1, 1)]
  | .S => [(1, 0), (2, 0), (0, 1), (1, 1)]
  | .T => [(1, 0), (0, 1), (1, 1), (2, 1)]
  | .Z => [(0, 0), (1, 0), (1, 1), (2, 1)]

/-- Number of successful gravity descents from the spawn anchor on an empty
board for each kind: 19 for the single-row I shape, 18 for the six shapes
whose lowest block has local row offset 1. -/
def fallSteps (k : PieceKind) : Nat :=
  match k with
  | .I => 19
  | _ => 18

/-- Well-formed board: the cell matrix is GRID_ROWS lists of GRID_COLS
cells each, as built by Grid::new and preserved by every operation. -/
def Grid.wf (g : Grid) : Prop :=
  g.cells.length = GRID_ROWS ∧ ∀ col ∈ g.cells, col.length = GRID_COLS

/-- Cell invariant: a cell is occupied exactly when it stores a block. -/
def Grid.Inv (g : Grid) : Prop :=
  ∀ col ∈ g.cells, ∀ cell ∈ col, cell.occupied = cell.block.isSome

/-- Grid states reachable from the fresh board through gravity steps,
the only operation of the program that mutates the grid. -/
inductive ReachableGrid : Grid → Prop
  | init : ReachableGrid Grid.new
  | step (p : Piece) (g : Grid) (p2 : Piece) (g2 : Grid) :
      ReachableGrid g → Piece.update p g = some (p2, g2) → ReachableGrid g2

/-- All active blocks of the piece lie on the board. -/
def Piece.activeInRange (p : Piece) : Prop :=
  ∀ b ∈ p.blockList, b.active = true →
    0 ≤ b.position.x ∧ b.position.x < 10 ∧ 0 ≤ b.position.y ∧ b.position.y < 20

/-- The piece has an active block in its anchor column.  Every piece built
from the 7-shape catalog has one, since every shape occupies a cell of
local column 0. -/
def HasAnchorColBlock (p : Piece) : Prop :=
  ∃ b ∈ p.blockList, b.active = true ∧ b.position.x = p.position.x

/-- A catalog piece whose anchor has been moved to (x, y) and whose block
positions have been recomputed, as Piece::update_fast does on every poll. -/
def placedPiece (k : PieceKind) (x y : Int) : Piece :=
  (Piece.new x y k).update_fast

/-- Modelled from the spec: moving LEFT is blocked exactly when some active
block is at column 0 or the cell one column to its left is occupied. -/
def leftBlocked (p : Piece) (g : Grid) : Bool :=
  p.blockList.any (fun b =>
    b.active && (b.position.x == 0 || g.occupiedAt (b.position.x - 1) b.position.y))

/-- Modelled from the spec: moving RIGHT is blocked exactly when some
active block has column + 1 equal to the board width 10 or the cell one
column to its right occupied. -/
def rightBlocked (p : Piece) (g : Grid) : Bool :=
  p.blockList.any (fun b =>
    b.active && (b.position.x + 1 == 10 || g.occupiedAt (b.position.x + 1) b.position.y))

/-- A locked piece: a freshly spawned O piece with its active flag cleared,
as Piece::update leaves the piece after a lock. -/
def lockedPiece : Piece := { Piece.new 4 0 PieceKind.O with active := false }

/-- The inactive corner entry (3, 3) of a freshly spawned O piece after one
position recomputation. -/
def inactiveCorner : Block :=
  { kind := PieceKind.O, position := ⟨0, 0⟩, offset := ⟨3, 3⟩
    active := false, render := false }

/-- The active entry (0, 0) of a freshly spawned O piece after one position
recomputation. -/
def activeCornerO : Block :=
  { kind := PieceKind.O, position := ⟨4, 0⟩, offset := ⟨0, 0⟩
    active := true, render := true }

/-- A rendered block whose computed position lies beyond both board
boundaries, as fed to the merge loop of Piece::update. -/
def overflowBlock : Block :=
  { kind := PieceKind.O, position := ⟨12, 25⟩, offset := ⟨0, 0⟩
    active := true, render := true }

end RustyCubes

namespace RustyCubes

theorem modifyL_length (f : α → α) (l : List α) (n : Nat) :
    (modifyL f l n).length = l.length := by
  induction l generalizing n with
  | nil => rfl
  | cons a rest ih =>
      cases n with
      | zero => rfl
      | succ m => simpa [modifyL] using ih m

theorem get?_modifyL (f : α → α) (l : List α) (n m : Nat) :
    (modifyL f l n).get? m = if m = n then (l.get? n).map f else l.get? m := by
  induction l generalizing n m with
  | nil => cases n <;> cases m <;> simp [modifyL]
  | cons a rest ih =>
      cases n with
      | zero => cases m <;> simp [modifyL]
      | succ n2 =>
          cases m with
          | zero => simp [modifyL]
          | succ m2 => simpa [modifyL, Nat.succ_inj] using ih n2 m2

theorem mem_modifyL (f : α → α) (l : List α) (n : Nat) (a : α)
    (h : a ∈ modifyL f l n) : a ∈ l ∨ ∃ b ∈ l, a = f b := by
  induction l generalizing n with
  | nil => cases h
  | cons x rest ih =>
      cases n with
      | zero =>
          rcases List.mem_cons.mp h with h1 | h1
          · exact Or.inr ⟨x, List.mem_cons_self x rest, h1⟩
          · exact Or.inl (List.mem_cons_of_mem x h1)
      | succ n2 =>
          rcases List.mem_cons.mp h with h1 | h1
          · exact Or.inl (h1 ▸ List.mem_cons_self x rest)
          · rcases ih n2 h1 with h2 | ⟨b, hb, hab⟩
            · exact Or.inl (List.mem_cons_of_mem x h2)
            · exact Or.inr ⟨b, List.mem_cons_of_mem x hb, hab⟩

theorem mem_blockList_of_get2? (p : Piece) (r c : Nat) (b : Block)
    (h : get2? p.blocks r c = some b) : b ∈ p.blockList := by
  unfold get2? at h
  cases hrow : p.blocks.get? r with
  | none => rw [hrow] at h; cases h
  | some row =>
      rw [hrow] at h
      simp only [Option.some_bind] at h
      exact List.mem_flatten.mpr ⟨row, List.get?_mem hrow, List.get?_mem h⟩

/-- C1: spawning an O piece at anchor (4, 0) on the empty 10 x 20 board and
stepping gravity locks the piece (within 18 of the allowed 20 steps) with
its 4 blocks occupying exactly rows 18-19 of columns 4-5, after which the
state holds a newly spawned piece at anchor (4, 0), whatever kind the
random draw produces next. -/
theorem C1_scenarioA : ∀ k : PieceKind,
    (iterateState k 18 (Piece.new 4 0 PieceKind.O) Grid.new).map
      (fun s => (s.1, s.2.occupiedPositions))
    = some (Piece.new 4 0 k, [(4, 18), (4, 19), (5, 18), (5, 19)]) := by
  intro k
  cases k <;> decide

/-- C3 (amended): on an empty board a piece spawned at (4, 0) descends one
row on each of its first fallSteps(kind) gravity ticks (19 for I, 18 for
the other kinds, whose lowest block starts at row 1) and is locked by the
last of them; the following gravity tick leaves the state unchanged, so no
20th fall attempt exists for two-row shapes. -/
theorem C3_fall_count : ∀ k : PieceKind,
    ((iterateUpdate (fallSteps k) (Piece.new 4 0 k) Grid.new).map
      (fun s => (s.1.position, s.1.active))
      = some (⟨4, (fallSteps k : Int)⟩, false)) ∧
    (iterateUpdate (fallSteps k + 1) (Piece.new 4 0 k) Grid.new
      = iterateUpdate (fallSteps k) (Piece.new 4 0 k) Grid.new) := by
  intro k
  cases k <;> exact ⟨by decide, by decide⟩

/-- C3 counterexample: the O piece spawned at row 0 over the empty 20-row
board is already locked after 18 gravity steps, at anchor row 18, and the
19th step changes nothing, refuting the claim that every piece completes
19 successful falls before the 20th attempt fails. -/
theorem C3_counterexample :
    ((iterateUpdate 18 (Piece.new 4 0 PieceKind.O) Grid.new).map
      (fun s => (s.1.position.y, s.1.active)) = some (18, false)) ∧
    iterateUpdate 19 (Piece.new 4 0 PieceKind.O) Grid.new
      = iterateUpdate 18 (Piece.new 4 0 PieceKind.O) Grid.new :=
  ⟨by decide, by decide⟩

/-- C4 (amended): dropping two O pieces into the same columns stacks the
second immediately atop the first with no pass-through (after 34 gravity
steps the board holds exactly rows 16-19 of columns 4-5), provided the
stack top is low enough for at least one full descent; see the
counterexample for the behaviour once the stack reaches the spawn rows. -/
theorem C4_scenarioC :
    (iterateState PieceKind.O 34 (Piece.new 4 0 PieceKind.O) Grid.new).map
      (fun s => (s.1, s.2.occupiedPositions))
    = some (Piece.new 4 0 PieceKind.O,
        [(4, 16), (4, 17), (4, 18), (4, 19), (5, 16), (5, 17), (5, 18), (5, 19)]) := by
  decide

/-- C4 counterexample: after 90 gravity steps of repeated O drops the
topmost occupied cell of column 4 is row 2 (row 1 is free) and the current
piece is a fresh O at (4, 0); the next gravity step locks that piece with
a rendered block at (4, 2) - on, not above, the topmost occupied cell -
so the falling piece has moved onto an occupied cell. -/
theorem C4_counterexample :
    ((iterateState PieceKind.O 90 (Piece.new 4 0 PieceKind.O) Grid.new).map
      (fun s => (s.1, Grid.occupiedAt s.2 4 2, Grid.occupiedAt s.2 4 1))
      = some (Piece.new 4 0 PieceKind.O, true, false)) ∧
    (((iterateState PieceKind.O 90 (Piece.new 4 0 PieceKind.O) Grid.new).bind
      (fun s => Piece.update s.1 s.2)).map
      (fun s => (s.1.active, (get2? s.1.blocks 0 1).map (fun b => (b.position, b.render))))
      = some (false, some (⟨4, 2⟩, true))) :=
  ⟨by decide, by decide⟩

/-- C5: for every kind, spawning at (4, 0) marks exactly the 4 catalog
cells of the 4 x 4 matrix active and rendered, leaves every other block
inactive and unrendered, gives each block its matrix indices as offset,
and sets the anchor to (4, 0). -/
theorem C5_spawn_matches_catalog : ∀ k : PieceKind,
    (Piece.new 4 0 k).position = ⟨4, 0⟩ ∧
    ((Piece.new 4 0 k).blockList.filter (fun b => b.active)).length = 4 ∧
    ∀ r < 4, ∀ c < 4,
      (blockAt (Piece.new 4 0 k) r c).active = (catalogCells k).contains (r, c) ∧
      (blockAt (Piece.new 4 0 k) r c).render = (catalogCells k).contains (r, c) ∧
      (blockAt (Piece.new 4 0 k) r c).offset = ⟨r, c⟩ := by
  intro k
  cases k <;> exact ⟨rfl, by decide, by decide⟩

theorem C5_spawn_matches_catalog_witness :
    (blockAt (Piece.new 4 0 PieceKind.O) 0 0).active
        = (catalogCells PieceKind.O).contains (0, 0) ∧
    (blockAt (Piece.new 4 0 PieceKind.O) 0 0).render
        = (catalogCells PieceKind.O).contains (0, 0) ∧
    (blockAt (Piece.new 4 0 PieceKind.O) 0 0).offset = ⟨0, 0⟩ :=
  (C5_spawn_matches_catalog PieceKind.O).2.2 0 (by decide) 0 (by decide)

/-- C9: the gravity-step/merge operation applied to an already locked
piece (active = false) returns at once, leaving the piece and the whole
board - occupancy and stored blocks - unchanged. -/
theorem C9_locked_update_noop : ∀ (p : Piece) (g : Grid), p.active = false →
    Piece.update p g = some (p, g) := by
  intro p g h
  simp [Piece.update, h]

theorem C9_locked_update_noop_witness :
    Piece.update lockedPiece Grid.new = some (lockedPiece, Grid.new) :=
  C9_locked_update_noop lockedPiece Grid.new rfl

end RustyCubes

namespace RustyCubes

/-- C6 (amended): after Piece::update_fast recomputes positions, every
ACTIVE block of the matrix satisfies absolute position = anchor + offset.
Block::update returns inactive blocks unchanged, so the claim's stronger
form quantifying over every block, active or not, fails (see the
counterexample). -/
theorem C6_recompute_active_blocks : ∀ (p : Piece) (r c : Nat) (b : Block),
    get2? (p.update_fast).blocks r c = some b → b.active = true →
    b.position = ⟨p.position.x + b.offset.x, p.position.y + b.offset.y⟩ := by
  intro p r c b hget hact
  have hget2 : ((p.blocks.map (fun row => row.map (fun bb => bb.update p.position))).get? r).bind
      (fun row => row.get? c) = some b := hget
  rw [List.get?_map] at hget2
  cases hrow : p.blocks.get? r with
  | none => rw [hrow] at hget2; cases hget2
  | some row =>
      rw [hrow] at hget2
      simp only [Option.map_some', Option.some_bind] at hget2
      rw [List.get?_map] at hget2
      cases hcell : row.get? c with
      | none => rw [hcell] at hget2; cases hget2
      | some b0 =>
          rw [hcell] at hget2
          simp only [Option.map_some'] at hget2
          have hb : b0.update p.position = b := Option.some.inj hget2
          subst hb
          by_cases hb0 : b0.active = true
          · simp [Block.update, hb0]
          · exfalso
            simp only [Block.update, hb0] at hact
            simp at hact
            exact hb0 hact

/-- C6 counterexample: in a freshly spawned O piece after one position
recomputation, the inactive matrix entry (3, 3) keeps position (0, 0),
which differs from anchor + offset = (4, 0) + (3, 3); so not every block
of the matrix satisfies the equation, only the active ones do. -/
theorem C6_counterexample :
    get2? ((Piece.new 4 0 PieceKind.O).update_fast).blocks 3 3 = some inactiveCorner ∧
    inactiveCorner.position ≠
      ⟨(Piece.new 4 0 PieceKind.O).position.x + inactiveCorner.offset.x,
       (Piece.new 4 0 PieceKind.O).position.y + inactiveCorner.offset.y⟩ :=
  ⟨by decide, by decide⟩

theorem C6_recompute_active_blocks_witness :
    activeCornerO.position =
      ⟨(Piece.new 4 0 PieceKind.O).position.x + activeCornerO.offset.x,
       (Piece.new 4 0 PieceKind.O).position.y + activeCornerO.offset.y⟩ :=
  C6_recompute_active_blocks (Piece.new 4 0 PieceKind.O) 0 0 activeCornerO
    (by decide) rfl

theorem cellAt?_pos (g : Grid) (x y : Int) (cell : GridCell)
    (h : g.cellAt? x y = some cell) : 0 ≤ x ∧ 0 ≤ y := by
  unfold Grid.cellAt? at h
  by_cases hc : 0 ≤ x ∧ 0 ≤ y
  · exact hc
  · rw [if_neg hc] at h; cases h

theorem cellAt?_get (g : Grid) (x y : Int) (cell : GridCell)
    (h : g.cellAt? x y = some cell) :
    (g.cells.get? x.toNat).bind (fun col => col.get? y.toNat) = some cell := by
  obtain ⟨hx, hy⟩ := cellAt?_pos g x y cell h
  unfold Grid.cellAt? at h
  rwa [if_pos ⟨hx, hy⟩] at h

theorem cellAt?_isSome (g : Grid) (hwf : g.wf) (x y : Int)
    (hx0 : 0 ≤ x) (hx : x < 10) (hy0 : 0 ≤ y) (hy : y < 20) :
    ∃ cell, g.cellAt? x y = some cell := by
  unfold Grid.cellAt?
  rw [if_pos ⟨hx0, hy0⟩]
  have hlen : g.cells.length = 10 := hwf.1
  cases hcol : g.cells.get? x.toNat with
  | none =>
      exfalso
      have hge := List.get?_eq_none.mp hcol
      omega
  | some col =>
      have hmem := List.get?_mem hcol
      have hclen : col.length = 20 := hwf.2 col hmem
      cases hcell : col.get? y.toNat with
      | none =>
          exfalso
          have hge := List.get?_eq_none.mp hcell
          omega
      | some cell =>
          refine ⟨cell, ?_⟩
          simp only [Option.some_bind]
          exact hcell

theorem occupiedAt_eq_of_cellAt? (g : Grid) (x y : Int) (cell : GridCell)
    (h : g.cellAt? x y = some cell) : g.occupiedAt x y = cell.occupied := by
  unfold Grid.occupiedAt
  rw [h]
  rfl

theorem cellAt?_setBlock?_self (g g2 : Grid) (x y : Int) (b : Block)
    (h : g.setBlock? x y b = some g2) :
    g2.cellAt? x y = (g.cellAt? x y).map (fun cell => cell.set_block b) := by
  unfold Grid.setBlock? at h
  cases hc : g.cellAt? x y with
  | none => rw [hc] at h; cases h
  | some cell =>
      rw [hc] at h
      have hg2 : Grid.mk (modify2 g.cells x.toNat y.toNat (fun c2 => c2.set_block b)) = g2 :=
        Option.some.inj h
      subst hg2
      obtain ⟨hx, hy⟩ := cellAt?_pos g x y cell hc
      have hget := cellAt?_get g x y cell hc
      unfold Grid.cellAt?
      rw [if_pos ⟨hx, hy⟩]
      show ((modifyL (fun row => modifyL (fun c2 => c2.set_block b) row y.toNat)
        g.cells x.toNat).get? x.toNat).bind (fun col => col.get? y.toNat) = _
      rw [get?_modifyL, if_pos rfl]
      cases hcol : g.cells.get? x.toNat with
      | none => rw [hcol] at hget; cases hget
      | some col =>
          rw [hcol] at hget
          simp only [Option.some_bind] at hget
          simp only [Option.map_some', Option.some_bind]
          rw [get?_modifyL, if_pos rfl, hget]
          rfl

theorem cellAt?_setBlock?_other (g g2 : Grid) (x y x2 y2 : Int) (b : Block)
    (h : g.setBlock? x y b = some g2) (hne : ¬(x2 = x ∧ y2 = y)) :
    g2.cellAt? x2 y2 = g.cellAt? x2 y2 := by
  unfold Grid.setBlock? at h
  cases hc : g.cellAt? x y with
  | none => rw [hc] at h; cases h
  | some cell =>
      rw [hc] at h
      have hg2 : Grid.mk (modify2 g.cells x.toNat y.toNat (fun c2 => c2.set_block b)) = g2 :=
        Option.some.inj h
      subst hg2
      obtain ⟨hx, hy⟩ := cellAt?_pos g x y cell hc
      by_cases hin : 0 ≤ x2 ∧ 0 ≤ y2
      · unfold Grid.cellAt?
        rw [if_pos hin, if_pos hin]
        show ((modifyL (fun row => modifyL (fun c2 => c2.set_block b) row y.toNat)
          g.cells x.toNat).get? x2.toNat).bind (fun col => col.get? y2.toNat) = _
        rw [get?_modifyL]
        by_cases hxx : x2.toNat = x.toNat
        · have hxeq : x2 = x := by omega
          have hyne : y2 ≠ y := fun hy2 => hne ⟨hxeq, hy2⟩
          have hyy : y2.toNat ≠ y.toNat := by omega
          rw [if_pos hxx, hxx]
          cases hcol : g.cells.get? x.toNat with
          | none => simp
          | some col =>
              simp only [Option.map_some', Option.some_bind]
              rw [get?_modifyL, if_neg hyy]
        · rw [if_neg hxx]
      · unfold Grid.cellAt?
        rw [if_neg hin, if_neg hin]

end RustyCubes

namespace RustyCubes

theorem setBlock?_Inv (g g2 : Grid) (x y : Int) (b : Block)
    (h : g.setBlock? x y b = some g2) (hinv : g.Inv) : g2.Inv := by
  unfold Grid.setBlock? at h
  cases hc : g.cellAt? x y with
  | none => rw [hc] at h; cases h
  | some cell =>
      rw [hc] at h
      have hg2 : Grid.mk (modify2 g.cells x.toNat y.toNat (fun c2 => c2.set_block b)) = g2 :=
        Option.some.inj h
      subst hg2
      intro col hcol cellm hcellm
      have hcol2 : col ∈ modifyL (fun row => modifyL (fun c2 => c2.set_block b) row y.toNat)
          g.cells x.toNat := hcol
      rcases mem_modifyL _ _ _ _ hcol2 with hmem | ⟨col0, hcol0, hceq⟩
      · exact hinv col hmem cellm hcellm
      · subst hceq
        rcases mem_modifyL _ _ _ _ hcellm with hmem2 | ⟨cell0, hcell0, hmeq⟩
        · exact hinv col0 hcol0 cellm hmem2
        · subst hmeq
          rfl

theorem mergeBlock_Inv (g g2 : Grid) (b : Block)
    (h : mergeBlock g b = some g2) (hinv : g.Inv) : g2.Inv := by
  unfold mergeBlock at h
  cases hbr : b.render with
  | false =>
      rw [hbr] at h
      simp only [Bool.not_false, if_true] at h
      cases h
      exact hinv
  | true =>
      rw [hbr] at h
      simp only [Bool.not_true, if_false] at h
      exact setBlock?_Inv g g2 _ _ b h hinv

theorem mergeAll_Inv (bs : List Block) : ∀ (g g2 : Grid),
    mergeAll g bs = some g2 → g.Inv → g2.Inv := by
  induction bs with
  | nil =>
      intro g g2 h hinv
      cases h
      exact hinv
  | cons b rest ih =>
      intro g g2 h hinv
      unfold mergeAll at h
      cases hm : mergeBlock g b with
      | none => rw [hm] at h; cases h
      | some gm =>
          rw [hm] at h
          exact ih gm g2 h (mergeBlock_Inv g gm b hm hinv)

theorem update_Inv (p : Piece) (g : Grid) (p2 : Piece) (g2 : Grid)
    (h : Piece.update p g = some (p2, g2)) (hinv : g.Inv) : g2.Inv := by
  unfold Piece.update at h
  split at h
  · cases h
    exact hinv
  · dsimp only at h
    split at h
    · cases h
    · split at h
      · split at h
        · cases h
        · cases h
          exact mergeAll_Inv _ _ _ (by assumption) hinv
      · cases h
        exact hinv

theorem setBlock?_mono (g g2 : Grid) (x y x2 y2 : Int) (b : Block)
    (h : g.setBlock? x y b = some g2) (hocc : g.occupiedAt x2 y2 = true) :
    g2.occupiedAt x2 y2 = true := by
  by_cases heq : x2 = x ∧ y2 = y
  · obtain ⟨h1, h2⟩ := heq
    subst h1
    subst h2
    unfold Grid.occupiedAt
    rw [cellAt?_setBlock?_self g g2 x2 y2 b h]
    unfold Grid.setBlock? at h
    cases hc : g.cellAt? x2 y2 with
    | none => rw [hc] at h; cases h
    | some cell => rfl
  · unfold Grid.occupiedAt
    rw [cellAt?_setBlock?_other g g2 x y x2 y2 b h heq]
    exact hocc

theorem mergeBlock_mono (g g2 : Grid) (b : Block) (x2 y2 : Int)
    (h : mergeBlock g b = some g2) (hocc : g.occupiedAt x2 y2 = true) :
    g2.occupiedAt x2 y2 = true := by
  unfold mergeBlock at h
  cases hbr : b.render with
  | false =>
      rw [hbr] at h
      simp only [Bool.not_false, if_true] at h
      cases h
      exact hocc
  | true =>
      rw [hbr] at h
      simp only [Bool.not_true, if_false] at h
      exact setBlock?_mono g g2 _ _ x2 y2 b h hocc

theorem mergeAll_mono (bs : List Block) : ∀ (g g2 : Grid) (x2 y2 : Int),
    mergeAll g bs = some g2 → g.occupiedAt x2 y2 = true → g2.occupiedAt x2 y2 = true := by
  induction bs with
  | nil =>
      intro g g2 x2 y2 h hocc
      cases h
      exact hocc
  | cons b rest ih =>
      intro g g2 x2 y2 h hocc
      unfold mergeAll at h
      cases hm : mergeBlock g b with
      | none => rw [hm] at h; cases h
      | some gm =>
          rw [hm] at h
          exact ih gm g2 x2 y2 h (mergeBlock_mono g gm b x2 y2 hm hocc)

theorem update_mono (p : Piece) (g : Grid) (p2 : Piece) (g2 : Grid)
    (h : Piece.update p g = some (p2, g2)) (x y : Int)
    (hocc : g.occupiedAt x y = true) : g2.occupiedAt x y = true := by
  unfold Piece.update at h
  split at h
  · cases h
    exact hocc
  · dsimp only at h
    split at h
    · cases h
    · split at h
      · split at h
        · cases h
        · cases h
          exact mergeAll_mono _ _ _ x y (by assumption) hocc
      · cases h
        exact hocc

/-- C8: board cells always satisfy occupied = (block present): the fresh
board's cells are all unoccupied with no stored block, the invariant holds
in every grid state reachable through gravity steps (the only operation
that mutates the grid; GridCell::set_block is its only cell mutation and
sets occupied together with the stored block), and occupancy is monotone:
no gravity step ever clears an occupied cell. -/
theorem C8_cell_invariant :
    (∀ g : Grid, ReachableGrid g → Grid.Inv g) ∧
    (∀ col ∈ Grid.new.cells, ∀ cell ∈ col, cell.occupied = false ∧ cell.block = none) ∧
    (∀ (p : Piece) (g : Grid) (p2 : Piece) (g2 : Grid),
      Piece.update p g = some (p2, g2) →
      ∀ x y : Int, g.occupiedAt x y = true → g2.occupiedAt x y = true) := by
  refine ⟨?_, by decide, ?_⟩
  · intro g hg
    induction hg with
    | init =>
        unfold Grid.Inv
        decide
    | step p gp p2 g2 hr hup ih => exact update_Inv p gp p2 g2 hup ih
  · intro p g p2 g2 h x y hocc
    exact update_mono p g p2 g2 h x y hocc

theorem C8_cell_invariant_witness : Grid.Inv Grid.new :=
  C8_cell_invariant.1 Grid.new ReachableGrid.init

/-- C7: when a locked piece is merged, a rendered block whose computed
position lies at or beyond the board boundary is not rejected: the target
cell is chosen by clamping each coordinate to the last valid column/row,
and that cell becomes occupied and stores the frozen (inactive, rendered)
copy of the block. -/
theorem C7_clamped_lock : ∀ (g : Grid) (b : Block), g.wf → b.render = true →
    0 ≤ b.position.x → 0 ≤ b.position.y →
    (0 ≤ clampX b.position.x ∧ clampX b.position.x < 10 ∧
     0 ≤ clampY b.position.y ∧ clampY b.position.y < 20) ∧
    ∃ g2 cell, mergeBlock g b = some g2 ∧
      g2.cellAt? (clampX b.position.x) (clampY b.position.y) = some cell ∧
      cell.occupied = true ∧ cell.block = some (frozenCopy b) ∧
      (frozenCopy b).active = false ∧ (frozenCopy b).render = true := by
  intro g b hwf hr hx0 hy0
  have hcx : 0 ≤ clampX b.position.x ∧ clampX b.position.x < 10 := by
    unfold clampX
    split
    · exact ⟨by decide, by decide⟩
    · rename_i hlt
      have hGR : (GRID_ROWS : Int) = 10 := rfl
      omega
  have hcy : 0 ≤ clampY b.position.y ∧ clampY b.position.y < 20 := by
    unfold clampY
    split
    · exact ⟨by decide, by decide⟩
    · rename_i hlt
      have hGC : (GRID_COLS : Int) = 20 := rfl
      omega
  refine ⟨⟨hcx.1, hcx.2, hcy.1, hcy.2⟩, ?_⟩
  obtain ⟨cell0, hcell0⟩ :=
    cellAt?_isSome g hwf (clampX b.position.x) (clampY b.position.y)
      hcx.1 hcx.2 hcy.1 hcy.2
  have hmerge : mergeBlock g b
      = g.setBlock? (clampX b.position.x) (clampY b.position.y) b := by
    unfold mergeBlock
    rw [hr]
    rfl
  have hset : g.setBlock? (clampX b.position.x) (clampY b.position.y) b
      = some (Grid.mk (modify2 g.cells (clampX b.position.x).toNat
          (clampY b.position.y).toNat (fun c2 => c2.set_block b))) := by
    unfold Grid.setBlock?
    rw [hcell0]
  have hself := cellAt?_setBlock?_self g _ (clampX b.position.x) (clampY b.position.y) b hset
  refine ⟨Grid.mk (modify2 g.cells (clampX b.position.x).toNat
      (clampY b.position.y).toNat (fun c2 => c2.set_block b)),
    cell0.set_block b, ?_, ?_, rfl, rfl, rfl, rfl⟩
  · rw [hmerge]
    exact hset
  · rw [hself, hcell0]
    rfl

theorem grid_new_wf : Grid.new.wf := by
  unfold Grid.wf
  exact ⟨by decide, by decide⟩

theorem C7_clamped_lock_witness :
    (0 ≤ clampX overflowBlock.position.x ∧ clampX overflowBlock.position.x < 10 ∧
     0 ≤ clampY overflowBlock.position.y ∧ clampY overflowBlock.position.y < 20) ∧
    ∃ g2 cell, mergeBlock Grid.new overflowBlock = some g2 ∧
      g2.cellAt? (clampX overflowBlock.position.x) (clampY overflowBlock.position.y)
        = some cell ∧
      cell.occupied = true ∧ cell.block = some (frozenCopy overflowBlock) ∧
      (frozenCopy overflowBlock).active = false ∧ (frozenCopy overflowBlock).render = true :=
  C7_clamped_lock Grid.new overflowBlock grid_new_wf rfl (by decide) (by decide)

end RustyCubes

namespace RustyCubes

theorem canMoveBlocks_left (g : Grid) (hwf : g.wf) :
    ∀ bs : List Block,
    (∀ b ∈ bs, b.active = true →
      0 ≤ b.position.x ∧ b.position.x < 10 ∧ 0 ≤ b.position.y ∧ b.position.y < 20) →
    canMoveBlocks g Direction.LEFT bs
      = some (!(bs.any (fun b =>
          b.active && (b.position.x == 0 || g.occupiedAt (b.position.x - 1) b.position.y)))) := by
  intro bs
  induction bs with
  | nil => intro _; rfl
  | cons b rest ih =>
      intro hb
      have hrest := ih (fun b2 hmem => hb b2 (List.mem_cons_of_mem b hmem))
      cases hact : b.active with
      | false =>
          simp only [canMoveBlocks, hact, Bool.not_false, if_true, hrest,
            List.any_cons, Bool.false_and, Bool.false_or]
      | true =>
          obtain ⟨hx0, hx, hy0, hy⟩ := hb b (List.mem_cons_self b rest) hact
          by_cases hxz : b.position.x = 0
          · simp only [canMoveBlocks, hact, Bool.not_true, Bool.false_eq_true,
              if_false, hxz, List.any_cons, Bool.true_and]
            norm_num
          · have hbeq : (b.position.x == 0) = false := by
              simp [hxz]
            obtain ⟨cell, hcell⟩ := cellAt?_isSome g hwf (b.position.x - 1) b.position.y
              (by omega) (by omega) hy0 hy
            have hoccat := occupiedAt_eq_of_cellAt? g _ _ cell hcell
            simp only [canMoveBlocks, hact, Bool.not_true, Bool.false_eq_true,
              if_false, hbeq, hcell, List.any_cons, Bool.true_and, hoccat, hrest]
            cases hocc : cell.occupied <;> simp

theorem canMoveBlocks_right (g : Grid) (hwf : g.wf) :
    ∀ bs : List Block,
    (∀ b ∈ bs, b.active = true →
      0 ≤ b.position.x ∧ b.position.x < 10 ∧ 0 ≤ b.position.y ∧ b.position.y < 20) →
    canMoveBlocks g Direction.RIGHT bs
      = some (!(bs.any (fun b =>
          b.active && (b.position.x + 1 == 10 || g.occupiedAt (b.position.x + 1) b.position.y)))) := by
  intro bs
  induction bs with
  | nil => intro _; rfl
  | cons b rest ih =>
      intro hb
      have hrest := ih (fun b2 hmem => hb b2 (List.mem_cons_of_mem b hmem))
      cases hact : b.active with
      | false =>
          simp only [canMoveBlocks, hact, Bool.not_false, if_true, hrest,
            List.any_cons, Bool.false_and, Bool.false_or]
      | true =>
          obtain ⟨hx0, hx, hy0, hy⟩ := hb b (List.mem_cons_self b rest) hact
          by_cases hxz : b.position.x + 1 = 10
          · simp only [canMoveBlocks, hact, Bool.not_true, Bool.false_eq_true,
              if_false, hxz, List.any_cons, Bool.true_and]
            norm_num
          · have hbeq : (b.position.x + 1 == 10) = false := by
              simp [hxz]
            obtain ⟨cell, hcell⟩ := cellAt?_isSome g hwf (b.position.x + 1) b.position.y
              (by omega) (by omega) hy0 hy
            have hoccat := occupiedAt_eq_of_cellAt? g _ _ cell hcell
            simp only [canMoveBlocks, hact, Bool.not_true, Bool.false_eq_true,
              if_false, hbeq, hcell, List.any_cons, Bool.true_and, hoccat, hrest]
            cases hocc : cell.occupied <;> simp

theorem placedPiece_position (k : PieceKind) (x y : Int) :
    (placedPiece k x y).position = ⟨x, y⟩ := by
  cases k <;> rfl

theorem placedPiece_block_col0 (k : PieceKind) (x y : Int) :
    ∃ b ∈ (placedPiece k x y).blockList,
      b.active = true ∧ b.position.x = x + 0 := by
  cases k
  case I =>
    exact ⟨_, mem_blockList_of_get2? _ 0 0 _
      (show get2? (placedPiece PieceKind.I x y).blocks 0 0
        = some { kind := PieceKind.I, position := ⟨x + 0, y + 0⟩, offset := ⟨0, 0⟩,
                 active := true, render := true } from rfl), rfl, rfl⟩
  case J =>
    exact ⟨_, mem_blockList_of_get2? _ 0 0 _
      (show get2? (placedPiece PieceKind.J x y).blocks 0 0
        = some { kind := PieceKind.J, position := ⟨x + 0, y + 0⟩, offset := ⟨0, 0⟩,
                 active := true, render := true } from rfl), rfl, rfl⟩
  case L =>
    exact ⟨_, mem_blockList_of_get2? _ 0 1 _
      (show get2? (placedPiece PieceKind.L x y).blocks 0 1
        = some { kind := PieceKind.L, position := ⟨x + 0, y + 1⟩, offset := ⟨0, 1⟩,
                 active := true, render := true } from rfl), rfl, rfl⟩
  case O =>
    exact ⟨_, mem_blockList_of_get2? _ 0 0 _
      (show get2? (placedPiece PieceKind.O x y).blocks 0 0
        = some { kind := PieceKind.O, position := ⟨x + 0, y + 0⟩, offset := ⟨0, 0⟩,
                 active := true, render := true } from rfl), rfl, rfl⟩
  case S =>
    exact ⟨_, mem_blockList_of_get2? _ 0 1 _
      (show get2? (placedPiece PieceKind.S x y).blocks 0 1
        = some { kind := PieceKind.S, position := ⟨x + 0, y + 1⟩, offset := ⟨0, 1⟩,
                 active := true, render := true } from rfl), rfl, rfl⟩
  case T =>
    exact ⟨_, mem_blockList_of_get2? _ 0 1 _
      (show get2? (placedPiece PieceKind.T x y).blocks 0 1
        = some { kind := PieceKind.T, position := ⟨x + 0, y + 1⟩, offset := ⟨0, 1⟩,
                 active := true, render := true } from rfl), rfl, rfl⟩
  case Z =>
    exact ⟨_, mem_blockList_of_get2? _ 0 0 _
      (show get2? (placedPiece PieceKind.Z x y).blocks 0 0
        = some { kind := PieceKind.Z, position := ⟨x + 0, y + 0⟩, offset := ⟨0, 0⟩,
                 active := true, render := true } from rfl), rfl, rfl⟩

theorem placedPiece_anchor_col (k : PieceKind) (x y : Int) :
    HasAnchorColBlock (placedPiece k x y) := by
  obtain ⟨b, hmem, hact, hcol⟩ := placedPiece_block_col0 k x y
  refine ⟨b, hmem, hact, ?_⟩
  rw [hcol, placedPiece_position]
  show x + 0 = x
  omega

/-- C2: for pieces built from the 7-shape catalog (every shape has a block
in local column 0, captured by HasAnchorColBlock) with recomputed
positions on the board, can_move returns false for LEFT exactly when some
active block is at column 0 or has the cell to its left occupied, and
false for RIGHT exactly when some active block has column + 1 equal to the
board width 10 or the cell to its right occupied; the anchor-column
pre-checks reject no further cases. -/
theorem C2_can_move_iff :
    (∀ (p : Piece) (g : Grid), g.wf → p.activeInRange → HasAnchorColBlock p →
      canMove? p g Direction.LEFT = some (!leftBlocked p g) ∧
      canMove? p g Direction.RIGHT = some (!rightBlocked p g)) ∧
    (∀ (k : PieceKind) (x y : Int), HasAnchorColBlock (placedPiece k x y)) := by
  constructor
  · intro p g hwf hrange hanchor
    constructor
    · unfold canMove?
      rw [if_neg (by simp)]
      by_cases hpre : p.position.x ≤ 0
      · rw [if_pos ⟨rfl, hpre⟩]
        obtain ⟨b, hmem, hact, hcol⟩ := hanchor
        obtain ⟨hx0, _, _, _⟩ := hrange b hmem hact
        have hxz : b.position.x = 0 := by omega
        have hblocked : leftBlocked p g = true := by
          unfold leftBlocked
          refine List.any_eq_true.mpr ⟨b, hmem, ?_⟩
          simp [hact, hxz]
        rw [hblocked]
        rfl
      · rw [if_neg (fun hcon => hpre hcon.2)]
        unfold leftBlocked
        exact canMoveBlocks_left g hwf p.blockList hrange
    · unfold canMove?
      by_cases hpre : p.position.x ≥ (GRID_ROWS : Int) - 1
      · rw [if_pos ⟨rfl, hpre⟩]
        obtain ⟨b, hmem, hact, hcol⟩ := hanchor
        obtain ⟨_, hxlt, _, _⟩ := hrange b hmem hact
        have hGR : (GRID_ROWS : Int) = 10 := rfl
        have hx9 : b.position.x + 1 = 10 := by omega
        have hblocked : rightBlocked p g = true := by
          unfold rightBlocked
          refine List.any_eq_true.mpr ⟨b, hmem, ?_⟩
          simp [hact, hx9]
        rw [hblocked]
        rfl
      · rw [if_neg (fun hcon => hpre hcon.2)]
        rw [if_neg (by simp)]
        unfold rightBlocked
        exact canMoveBlocks_right g hwf p.blockList hrange
  · intro k x y
    exact placedPiece_anchor_col k x y

theorem C2_can_move_iff_witness :
    canMove? (placedPiece PieceKind.O 4 0) Grid.new Direction.LEFT
      = some (!leftBlocked (placedPiece PieceKind.O 4 0) Grid.new) ∧
    canMove? (placedPiece PieceKind.O 4 0) Grid.new Direction.RIGHT
      = some (!rightBlocked (placedPiece PieceKind.O 4 0) Grid.new) :=
  C2_can_move_iff.1 (placedPiece PieceKind.O 4 0) Grid.new grid_new_wf
    (by unfold Piece.activeInRange; decide)
    (C2_can_move_iff.2 PieceKind.O 4 0)

/-- C10: whenever every active block of the piece lies on the board,
can_move never reaches an out-of-range grid access in either direction:
the LEFT branch returns before indexing when a block is at column 0, and
the RIGHT boundary test short-circuits before the occupancy lookup, so the
call returns a value (no panic). -/
theorem C10_can_move_no_panic : ∀ (p : Piece) (g : Grid) (d : Direction),
    g.wf → p.activeInRange → (canMove? p g d).isSome = true := by
  intro p g d hwf hrange
  unfold canMove?
  by_cases h1 : d = Direction.RIGHT ∧ p.position.x ≥ (GRID_ROWS : Int) - 1
  · rw [if_pos h1]
    rfl
  · rw [if_neg h1]
    by_cases h2 : d = Direction.LEFT ∧ p.position.x ≤ 0
    · rw [if_pos h2]
      rfl
    · rw [if_neg h2]
      cases d with
      | LEFT =>
          rw [canMoveBlocks_left g hwf p.blockList hrange]
          rfl
      | RIGHT =>
          rw [canMoveBlocks_right g hwf p.blockList hrange]
          rfl

theorem C10_can_move_no_panic_witness :
    (canMove? (placedPiece PieceKind.I 4 3) Grid.new Direction.RIGHT).isSome = true :=
  C10_can_move_no_panic (placedPiece PieceKind.I 4 3) Grid.new Direction.RIGHT
    grid_new_wf (by unfold Piece.activeInRange; decide)

end RustyCubes
